import Mathlib

/-!
Verification of the gofiber/jwt middleware (jwtware package) against its
natural-language specification.

The development shallowly embeds the Go source:
* Go strings are modelled as `List Char` (Go ranges over bytes; all inputs of
  interest here are ASCII, where bytes and characters coincide) or, for map
  keys and error messages, as Lean `String`.
* Go maps `map[string]*rawJWK` are modelled as functions `String → Option rawJWK`.
* Fallible Go functions returning `(value, error)` pairs are modelled as pairs
  of `Option`s in the same shape, so that the bare-`return`-of-zero-values
  behaviour of named result parameters is representable.
* The concurrent refresh controller (`KeySet.startRefreshing`) is modelled as a
  discrete-event state machine: each servicing of the refresh-request channel
  runs atomically (in the source every such servicing holds `refreshMux` for
  its whole duration), and the time at which the one-shot deferred-refresh
  goroutine actually executes is a schedule parameter — Go guarantees only
  that its timer fires no earlier than the scheduled wake, and the goroutine
  must still win `refreshMux`, so it can run after later-arriving requests
  have been serviced.  `validSchedule` captures exactly these constraints.
-/

namespace Jwtware

/-- Error values of the jwtware package (`jwks.go` var block).  Per-URL fetch
failures of `KeySet.refresh` are distinguished by stage (HTTP request/`Do`
error, body-read error, JWKS JSON-parse error) with an opaque payload. -/
inductive GoErr where
  | kidNotFound
  | missingKid
  | kidNotString
  | unsupportedKeyType
  | missingKeySet
  | httpErr (payload : Nat)
  | readErr (payload : Nat)
  | parseErr (payload : Nat)
deriving DecidableEq, Repr

/-- Embedding of `rawJWK` (`jwks.go`): the raw JSON fields of one key entry.
The unexported `precomputed interface{}` cache is omitted: it is written only
by the key-construction code (`getECDSA`/`getRSA`), which is outside the
claims considered here. -/
structure rawJWK where
  Curve : String
  Exponent : String
  ID : String
  Modulus : String
  X : String
  Y : String
deriving DecidableEq, Repr

/-- Go map `map[string]*rawJWK`, modelled as a lookup function. -/
def KeyMap : Type := String → Option rawJWK

/-- Empty Go map (also stands for the `nil` map, which behaves identically for
lookups). -/
def emptyKeys : KeyMap := fun _ => none

/-- Go map assignment `m[k] = v`. -/
def kupdate (m : KeyMap) (k : String) (v : rawJWK) : KeyMap :=
  fun q => if q = k then some v else m q

/-- Embedding of `parseKeySet` (`jwks.go` lines 258-273) after the JSON
unmarshalling step (performed by the external `encoding/json` library): the
decoded `rawJWKs.Keys` slice is folded into a fresh map with
`keys[key.ID] = &key`, in slice order.  No entry is skipped. -/
def parseKeySet (entries : List rawJWK) : KeyMap :=
  entries.foldl (fun m key => kupdate m key.ID key) emptyKeys

/-- Embedding of `mergemap` (`jwks.go` lines 480-492): a fresh map receives
all entries of `origMap` and then all entries of `newMap`, so a lookup is
answered by `newMap` when it binds the key and by `origMap` otherwise.  (The
two Go `range` loops copy each map's distinct keys; iteration order is
immaterial for the resulting map.) -/
def mergemap (origMap newMap : KeyMap) : KeyMap :=
  fun k =>
    match newMap k with
    | some v => some v
    | none => origMap k

/-- Published state of a `KeySet` relevant to refresh: the `Keys` snapshot. -/
structure KeySetState where
  Keys : KeyMap

/-- Outcome of processing one configured URL inside `KeySet.refresh`: either
one of the three per-URL failures (request creation / `client.Do`, body read,
JWKS parse), or the successfully decoded list of key entries. -/
def FetchOutcome : Type := Except GoErr (List rawJWK)

/-- Embedding of the URL loop of `KeySet.refresh` (`jwks.go` lines 428-459):
the accumulator map starts out nil, each successful URL is parsed and merged
over it left-to-right in configured order, and the first per-URL failure
aborts the whole loop with that error. -/
def refreshLoop : List FetchOutcome → KeyMap → Except GoErr KeyMap
  | [], acc => .ok acc
  | .error e :: _, _ => .error e
  | .ok body :: rest, acc => refreshLoop rest (mergemap acc (parseKeySet body))

/-- Embedding of `KeySet.refresh` (`jwks.go` lines 416-469) as a state
transformer on the published snapshot: on any per-URL error the function
returns that error and `j.Keys` is untouched; only when the loop finishes is
`j.Keys = keys` executed under the writer lock. -/
def refresh (outcomes : List FetchOutcome) (st : KeySetState) :
    Except GoErr Unit × KeySetState :=
  match refreshLoop outcomes emptyKeys with
  | .error e => (.error e, st)
  | .ok keys => (.ok (), { Keys := keys })

/-- First per-URL error of a refresh, in configured URL order. -/
def firstFetchError : List FetchOutcome → Option GoErr
  | [] => none
  | .error e :: _ => some e
  | .ok _ :: rest => firstFetchError rest

/-- Embedding of `KeySet.getKey` (`jwks.go` lines 276-318).  The Go function
has named results `(jsonKey *rawJWK, err error)`; it is modelled as the pair
`(Option rawJWK × Option GoErr)` so that the bare `return` in the
`<-j.ctx.Done()` select case — which yields the zero values `(nil, nil)` — is
representable.  Parameters model the environment of one call:
`keys` is the snapshot read under the reader lock, `refreshUnknownKID` is
`Config.KeyRefreshUnknownKID != nil && *Config.KeyRefreshUnknownKID`,
`ctxDone` tells whether the root context is already cancelled, `chanFull`
whether the capacity-1 `refreshRequests` channel already holds a request, and
`keysAfterRefresh` is the snapshot re-read after the awaited refresh
completes.  The Go `select` chooses among ready cases; the embedding resolves
it deterministically with the `ctx.Done` case first (when the channel is full
and the context is cancelled — the situation used below — only that case is
ready, so Go behaves deterministically and identically). -/
def getKey (keys : KeyMap) (refreshUnknownKID ctxDone chanFull : Bool)
    (keysAfterRefresh : KeyMap) (kid : String) :
    Option rawJWK × Option GoErr :=
  match keys kid with
  | some k => (some k, none)
  | none =>
    if refreshUnknownKID then
      if ctxDone then (none, none)
      else if chanFull then (none, some .kidNotFound)
      else
        match keysAfterRefresh kid with
        | some k => (some k, none)
        | none => (none, some .kidNotFound)
    else (none, some .kidNotFound)

/-- Modelled from the spec: the signing-method string constants (`ES256`,
`RS256`, ... declarations are in a source file of this repository that is not
under `src/`; only their uses are).  Per spec sections 4.4 and 6, and the test
files, each constant is its own algorithm name. -/
def ES256 : String := "ES256"

/-- Modelled from the spec: see `ES256`. -/
def ES384 : String := "ES384"

/-- Modelled from the spec: see `ES256`. -/
def ES512 : String := "ES512"

/-- Modelled from the spec: see `ES256`. -/
def RS256 : String := "RS256"

/-- Modelled from the spec: see `ES256`. -/
def RS384 : String := "RS384"

/-- Modelled from the spec: see `ES256`. -/
def RS512 : String := "RS512"

/-- Modelled from the spec: see `ES256`. -/
def PS256 : String := "PS256"

/-- Modelled from the spec: see `ES256`. -/
def PS384 : String := "PS384"

/-- Modelled from the spec: see `ES256`. -/
def PS512 : String := "PS512"

/-- Value stored under a JWT header field (Go `interface{}`): either a string
or some non-string JSON value. -/
inductive HeaderVal where
  | str (s : String)
  | nonString
deriving DecidableEq, Repr

/-- Result of the key-lookup function `KeySet.keyFunc`: the ECDSA
construction `jsonKey.getECDSA()` invoked on the (possibly nil) key pointer,
the RSA construction `jsonKey.getRSA()` likewise, or an error.  The key
construction bodies live outside the claims; only which one is dispatched is
modelled. -/
inductive KeyFuncResult where
  | ecdsaKey (k : Option rawJWK)
  | rsaKey (k : Option rawJWK)
  | failure (e : GoErr)
deriving DecidableEq, Repr

/-- Embedding of the body of `KeySet.keyFunc` (`jwks.go` lines 193-228) after
its bootstrap step (`if j.Keys == nil` the key set is first downloaded; the
claims quantify over calls with a loaded key set, so `keys` is the loaded
map).  The kid is taken from the JWT header (missing or non-string kid are
errors), resolved through `getKey`, and the header `alg` selects the key
family: ES256/384/512 dispatch to ECDSA, PS256/384/512 and RS256/384/512 to
RSA, and anything else — including a missing or non-string `alg` — fails with
`errUnsupportedKeyType`. -/
def keyFuncBody (keys : KeyMap) (refreshUnknownKID ctxDone chanFull : Bool)
    (keysAfterRefresh : KeyMap) (kidHeader : Option HeaderVal)
    (algHeader : Option HeaderVal) : KeyFuncResult :=
  match kidHeader with
  | none => .failure .missingKid
  | some .nonString => .failure .kidNotString
  | some (.str kid) =>
    match getKey keys refreshUnknownKID ctxDone chanFull keysAfterRefresh kid with
    | (_, some e) => .failure e
    | (jsonKey, none) =>
      match algHeader with
      | some (.str a) =>
        if a = ES256 ∨ a = ES384 ∨ a = ES512 then .ecdsaKey jsonKey
        else if a = PS256 ∨ a = PS384 ∨ a = PS512 ∨
            a = RS256 ∨ a = RS384 ∨ a = RS512 then .rsaKey jsonKey
        else .failure .unsupportedKeyType
      | _ => .failure .unsupportedKeyType

/-- Refresh-controller state owned by `KeySet.startRefreshing` (`jwks.go`
lines 322-413): the `lastRefresh` timestamp and the single-shot deferred
refresh gate.  `queuedWake = some w` models `queueOnce` being used with the
one-shot goroutine scheduled to run its refresh at wake time `w`
(`lastRefresh.Add(*KeyRefreshRateLimit)` as read by that goroutine);
`queuedWake = none` models a fresh `queueOnce`.  Timestamps are integers; the
initial `lastRefresh` is `time.Now().Add(-rateLimit)`, i.e. `-r` at start
time `0`. -/
structure RefreshCtl where
  lastRefresh : Int
  queuedWake : Option Int
deriving DecidableEq, Repr

/-- Initial controller state with rate limiting configured (`jwks.go` lines
324-329, taking start time `0`). -/
def rcInit (rateLimit : Int) : RefreshCtl :=
  { lastRefresh := -rateLimit, queuedWake := none }

/-- Observable actions of the refresh controller: a refresh commencing at a
time, and a waiter's cancellation handle being invoked at a time. -/
inductive RCAction where
  | refreshed (t : Int)
  | waiterCancelled (t : Int)
deriving DecidableEq, Repr

/-- Embedding of the request-servicing branch of `KeySet.startRefreshing`
(`case cancel := <-j.refreshRequests`, `jwks.go` lines 354-406), run
atomically at time `t` (the whole branch holds `refreshMux`).  With a rate
limit `r`: inside the window (`lastRefresh + r > now`) the waiter is
cancelled immediately and, if no deferred refresh is queued yet
(`queueOnce`), one is scheduled for wake time `lastRefresh + r`; outside the
window (or with no rate limit configured) the refresh runs inline,
`lastRefresh` becomes `now`, and the waiter is cancelled afterwards. -/
def serviceRequest (rateLimit : Option Int) (t : Int) (s : RefreshCtl) :
    RefreshCtl × List RCAction :=
  match rateLimit with
  | some r =>
    if t < s.lastRefresh + r then
      match s.queuedWake with
      | none =>
        ({ s with queuedWake := some (s.lastRefresh + r) },
          [.waiterCancelled t])
      | some _ => (s, [.waiterCancelled t])
    else
      ({ lastRefresh := t, queuedWake := s.queuedWake },
        [.refreshed t, .waiterCancelled t])
  | none =>
    ({ lastRefresh := t, queuedWake := s.queuedWake },
      [.refreshed t, .waiterCancelled t])

/-- Events of a controller schedule: a dequeued refresh request serviced at
time `t`, or the pending one-shot deferred-refresh goroutine winning
`refreshMux` and executing at time `t`.  The execution time of the deferred
goroutine is a schedule parameter: Go's `time.After` fires no earlier than
the computed wait, and the woken goroutine must still acquire `refreshMux`
(`jwks.go` lines 365-390), so it may run only after later-arriving requests
have been serviced.  `validSchedule` states the timing constraints a real
execution obeys. -/
inductive RCEvent where
  | request (t : Int)
  | deferredRun (t : Int)
deriving DecidableEq, Repr

/-- Time at which a schedule event occurs. -/
def eventTime : RCEvent → Int
  | .request t => t
  | .deferredRun t => t

/-- Execution of one schedule event.  A `request` runs the request-servicing
branch (`serviceRequest`).  A `deferredRun` executes the body of the pending
one-shot goroutine (`jwks.go` lines 376-389): under `refreshMux` it runs the
refresh, sets `lastRefresh` to the current time, and resets `queueOnce`;
when no deferred refresh is pending there is no such goroutine, so the event
does nothing. -/
def rcExec (rateLimit : Option Int) (s : RefreshCtl) :
    RCEvent → RefreshCtl × List RCAction
  | .request t => serviceRequest rateLimit t s
  | .deferredRun t =>
    match s.queuedWake with
    | some _ => ({ lastRefresh := t, queuedWake := none }, [.refreshed t])
    | none => (s, [])

/-- Run of the refresh controller over a schedule of events. -/
def rcTrace (rateLimit : Option Int) (s : RefreshCtl) :
    List RCEvent → RefreshCtl × List RCAction
  | [] => (s, [])
  | ev :: evs =>
    ((rcTrace rateLimit (rcExec rateLimit s ev).1 evs).1,
     (rcExec rateLimit s ev).2
       ++ (rcTrace rateLimit (rcExec rateLimit s ev).1 evs).2)

/-- Realizability of a schedule under Go's timing rules, starting from state
`s` with the previous event at time `prev`: event times are nondecreasing,
and a deferred execution occurs only while a deferred refresh is pending and
no earlier than its scheduled wake time (the timer fires no earlier than its
wait; mutex contention can delay the goroutine arbitrarily, in particular
past later-arriving requests). -/
def validSchedule (rateLimit : Option Int) (s : RefreshCtl) (prev : Int) :
    List RCEvent → Bool
  | [] => true
  | ev :: evs =>
    decide (prev ≤ eventTime ev) &&
    (match ev, s.queuedWake with
     | .deferredRun t, some w => decide (w ≤ t)
     | .deferredRun _, none => false
     | .request _, _ => true) &&
    validSchedule rateLimit (rcExec rateLimit s ev).1 (eventTime ev) evs

/-- Commencement times of the refreshes in an action log, in order. -/
def refreshTimes (log : List RCAction) : List Int :=
  log.filterMap fun a =>
    match a with
    | .refreshed t => some t
    | .waiterCancelled _ => none

/-- Chain check: starting from last-refresh time `prev`, every listed refresh
time is at least `rate_limit` after its predecessor. -/
def spacedFrom (r : Int) : Int → List Int → Bool
  | _, [] => true
  | prev, t :: ts => decide (prev + r ≤ t) && spacedFrom r t ts

/-- Embedding of the non-blocking send into the capacity-1 `refreshRequests`
channel (`make(chan context.CancelFunc, 1)`, `jwks.go` line 248; sends at
lines 291-299 and 346-351 both use `select` with a `default` that drops the
request).  The channel content is the list of buffered requests. -/
def trySend (ch : List Nat) (c : Nat) : List Nat × Bool :=
  if ch.length < 1 then (ch ++ [c], true) else (ch, false)

/-- Sample key entry used for concrete evaluations. -/
def sampleKey : rawJWK :=
  { Curve := "P-256", Exponent := "", ID := "gofiber-test", Modulus := "",
    X := "x", Y := "y" }

/-- Whitespace predicate of Go's `strings.TrimSpace` restricted to ASCII
(`unicode.IsSpace` on ASCII input). -/
def goIsSpace (c : Char) : Bool :=
  c = ' ' || c = '\t' || c = '\n' || c = '\x0b' || c = '\x0c' || c = '\r'

/-- Embedding of `strings.TrimSpace`: drop whitespace from both ends. -/
def trimChars (l : List Char) : List Char :=
  ((l.dropWhile goIsSpace).reverse.dropWhile goIsSpace).reverse

/-- Embedding of `strings.EqualFold` for the ASCII inputs of interest: equal
length and character-wise equality up to case folding. -/
def eqFold : List Char → List Char → Bool
  | [], [] => true
  | a :: as, b :: bs => (a.toLower = b.toLower : Bool) && eqFold as bs
  | _, _ => false

/-- Embedding of `strings.Split(s, sep)` for a one-character separator, as
used on the token-lookup string (`strings.Split(cfg.TokenLookup, ",")` and
`strings.Split(..., ":")` in `Config.getExtractors`).  Like Go, the empty
string splits to one empty field and a trailing separator yields a trailing
empty field. -/
def splitOnChar (sep : Char) : List Char → List (List Char)
  | [] => [[]]
  | c :: rest =>
    if c = sep then [] :: splitOnChar sep rest
    else
      match splitOnChar sep rest with
      | h :: t => (c :: h) :: t
      | [] => [[c]]

/-- Sentinel extraction-failure message (`jwt.go`): the `errors.New` text
returned by each extractor. -/
def missingMsg : String := "Missing or malformed JWT"

/-- Embedding of the closure returned by `jwtFromHeader` (`jwt.go` lines
34-43), applied to the header value `auth`: with `l = len(authScheme)`,
extraction succeeds when `len(auth) > l+1` and the first `l` bytes equal the
scheme under `strings.EqualFold`, returning `strings.TrimSpace(auth[l:])`;
otherwise it returns the empty string and the sentinel error.  The result is
the Go-shaped pair (token, optional error message). -/
def jwtFromHeader (authScheme auth : List Char) : List Char × Option String :=
  if decide (authScheme.length + 1 < auth.length) &&
      eqFold (auth.take authScheme.length) authScheme then
    (trimChars (auth.drop authScheme.length), none)
  else ([], some missingMsg)

/-- Embedding of the closure returned by `jwtFromQuery` (`jwt.go` lines
46-54), applied to the query value: empty value fails with the sentinel. -/
def jwtFromQuery (token : List Char) : List Char × Option String :=
  if token = [] then ([], some missingMsg) else (token, none)

/-- Embedding of the closure returned by `jwtFromParam` (`jwt.go` lines
57-65): identical shape to the query extractor. -/
def jwtFromParam (token : List Char) : List Char × Option String :=
  if token = [] then ([], some missingMsg) else (token, none)

/-- Embedding of the closure returned by `jwtFromCookie` (`jwt.go` lines
68-76): identical shape to the query extractor. -/
def jwtFromCookie (token : List Char) : List Char × Option String :=
  if token = [] then ([], some missingMsg) else (token, none)

/-- Extractor built by `Config.getExtractors`: which request source it reads
and with which name (and, for headers, which auth scheme). -/
inductive ExtractorSpec where
  | header (name authScheme : List Char)
  | query (name : List Char)
  | param (name : List Char)
  | cookie (name : List Char)
deriving DecidableEq, Repr

/-- Embedding of `Config.getExtractors` (`config.go` lines 184-203): the
token-lookup string is split on commas, each part is trimmed and split on a
colon, and the switch on `parts[0]` appends the matching extractor — sources
other than the four recognized ones fall through the switch and are skipped.
(Go indexes `parts[1]`, which panics when a recognized source has no colon;
the total embedding reads the empty name instead — no claim concerns that
input.) -/
def getExtractors (tokenLookup authScheme : List Char) : List ExtractorSpec :=
  (splitOnChar ',' tokenLookup).foldl
    (fun acc rootPart =>
      let parts := splitOnChar ':' (trimChars rootPart)
      let src := parts.headD []
      if src = "header".data then acc ++ [.header (parts.getD 1 []) authScheme]
      else if src = "query".data then acc ++ [.query (parts.getD 1 [])]
      else if src = "param".data then acc ++ [.param (parts.getD 1 [])]
      else if src = "cookie".data then acc ++ [.cookie (parts.getD 1 [])]
      else acc)
    []

/-- One comma-part of the token lookup, as an optional extractor: `some` for
the four recognized sources, `none` otherwise.  Used to characterize
`getExtractors` as a filterMap over the parts. -/
def partExtractor (authScheme rootPart : List Char) : Option ExtractorSpec :=
  let parts := splitOnChar ':' (trimChars rootPart)
  let src := parts.headD []
  if src = "header".data then some (.header (parts.getD 1 []) authScheme)
  else if src = "query".data then some (.query (parts.getD 1 []))
  else if src = "param".data then some (.param (parts.getD 1 []))
  else if src = "cookie".data then some (.cookie (parts.getD 1 []))
  else none

/-- Whether one comma-part of the token lookup names an unrecognized source. -/
def unrecognizedPart (rootPart : List Char) : Bool :=
  let src := (splitOnChar ':' (trimChars rootPart)).headD []
  !(src = "header".data || src = "query".data ||
    src = "param".data || src = "cookie".data)

/-- Request-context contract consumed from the host framework (spec section
6): read a named header, query parameter, route parameter, or cookie.  Go
returns the empty string for a missing name; the model returns the empty
character list. -/
structure Req where
  header : List Char → List Char
  query : List Char → List Char
  param : List Char → List Char
  cookie : List Char → List Char

/-- Application of one extractor to a request (`jwt.go` closures). -/
def runExtractor (c : Req) : ExtractorSpec → List Char × Option String
  | .header name authScheme => jwtFromHeader authScheme (c.header name)
  | .query name => jwtFromQuery (c.query name)
  | .param name => jwtFromParam (c.param name)
  | .cookie name => jwtFromCookie (c.cookie name)

/-- Concrete request carrying a bearer token, used for evaluations. -/
def sampleReq : Req :=
  { header := fun n => if n = "Authorization".data then "Bearer tok".data else []
    query := fun _ => []
    param := fun _ => []
    cookie := fun _ => [] }

/-- Embedding of the extraction loop of `New` (`main.go` lines 36-44): the
loop variables `auth, err` are overwritten by each extractor in turn and the
loop breaks at the first extraction with a non-empty token and nil error;
with no extractors the zero values (empty token, nil error) remain.  (On the
last extractor the success test only decides whether the loop breaks or
falls off its end — the resulting pair is that extractor's result either
way, so the embedding returns it directly.) -/
def extractLoop (c : Req) : List ExtractorSpec → List Char × Option String
  | [] => ([], none)
  | [e] => runExtractor c e
  | e :: e1 :: rest =>
    if (runExtractor c e).1 ≠ [] ∧ (runExtractor c e).2 = none then
      runExtractor c e
    else extractLoop c (e1 :: rest)

/-- Embedding of the default error handler installed by `makeCfg`
(`config.go` lines 97-104): status 400 with the sentinel body when the
error's message equals the sentinel, status 401 otherwise.
(`fiber.StatusBadRequest = 400`, `fiber.StatusUnauthorized = 401`.) -/
def defaultErrorHandler (errMsg : String) : Nat × String :=
  if errMsg = "Missing or malformed JWT" then
    (400, "Missing or malformed JWT")
  else (401, "Invalid or expired JWT")

/-- Modelled from the spec: the JWT parse step performed by the external
`golang-jwt` library (`jwt.Parse` in `New`, `main.go` lines 50-56; the
library's code is not part of this repository).  Per spec section 6, a token
is a JWS compact serialization of exactly three dot-separated segments; a
string without three segments fails to parse with the library's
segment-count error message, which differs from the extraction sentinel.
Success on well-formed input is abstracted away (`none` means the claims on
it are not decided here); only failure on malformed input is used. -/
def jwtParse (auth : List Char) : Option String :=
  if (splitOnChar '.' auth).length = 3 then none
  else some "token contains an invalid number of segments"

/-- Outcome of the middleware handler on one request: the success path, or an
HTTP response produced by the default error handler. -/
inductive Outcome where
  | success
  | response (status : Nat) (body : String)
deriving DecidableEq, Repr

/-- Embedding of the middleware handler returned by `New` (`main.go` lines
31-63) with the default error handler, for requests not skipped by the
filter: run the extraction loop; a non-nil extraction error goes to the
error handler; otherwise the token string is parsed, a parse failure goes to
the error handler, and a valid parse reaches the success path. -/
def newHandler (extractors : List ExtractorSpec) (c : Req) : Outcome :=
  match extractLoop c extractors with
  | (_, some e) =>
    Outcome.response (defaultErrorHandler e).1 (defaultErrorHandler e).2
  | (auth, none) =>
    match jwtParse auth with
    | some e =>
      Outcome.response (defaultErrorHandler e).1 (defaultErrorHandler e).2
    | none => Outcome.success

/-- Scalar configuration fields defaulted by `makeCfg`. -/
structure CfgCore where
  signingMethod : String
  contextKey : String
  tokenLookup : String
  authScheme : String
deriving DecidableEq, Repr

/-- Default token lookup `"header:" + fiber.HeaderAuthorization`
(`main.go` line 21; `fiber.HeaderAuthorization = "Authorization"`). -/
def defaultTokenLookup : String := "header:Authorization"

/-- Embedding of the defaulting steps of `makeCfg` on the scalar fields
(`config.go` lines 108-123): signing method defaults to `"HS256"` when unset
and no JWK Set URLs are configured; context key defaults to `"user"`; when
the token lookup is unset it becomes the default lookup and only then an
unset auth scheme becomes `"Bearer"`. -/
def makeCfgDefaults (cfg : CfgCore) (numJWKSetURLs : Nat) : CfgCore :=
  let sm :=
    if cfg.signingMethod = "" ∧ numJWKSetURLs = 0 then "HS256"
    else cfg.signingMethod
  let ck := if cfg.contextKey = "" then "user" else cfg.contextKey
  if cfg.tokenLookup = "" then
    { signingMethod := sm, contextKey := ck,
      tokenLookup := defaultTokenLookup,
      authScheme := if cfg.authScheme = "" then "Bearer" else cfg.authScheme }
  else
    { signingMethod := sm, contextKey := ck,
      tokenLookup := cfg.tokenLookup, authScheme := cfg.authScheme }

/-- Claimed acceptance condition for the header extractor, written from the
claim's words (used only to compare against the source embedding): the value
begins with the configured scheme matched case-insensitively, followed by
exactly one separator character (the space separating scheme and token in an
HTTP Authorization header) and at least one further character. -/
def claimHeaderAccepts (authScheme auth : List Char) : Bool :=
  decide (authScheme.length + 2 ≤ auth.length) &&
    eqFold (auth.take authScheme.length) authScheme &&
    ((auth.drop authScheme.length).headD 'x' = ' ' : Bool)

theorem refreshLoop_error (outcomes : List FetchOutcome) :
    ∀ (acc : KeyMap) (e : GoErr), firstFetchError outcomes = some e →
      refreshLoop outcomes acc = .error e := by
  induction outcomes with
  | nil => intro acc e h; simp [firstFetchError] at h
  | cons o rest ih =>
    intro acc e h
    cases o with
    | error e0 =>
      simp [firstFetchError] at h
      simp [refreshLoop, h]
    | ok body =>
      simp [firstFetchError] at h
      simpa [refreshLoop] using ih _ _ h

theorem refreshLoop_ok (outcomes : List FetchOutcome) :
    ∀ (acc : KeyMap), firstFetchError outcomes = none →
      ∃ m, refreshLoop outcomes acc = .ok m := by
  induction outcomes with
  | nil => intro acc _; exact ⟨acc, rfl⟩
  | cons o rest ih =>
    intro acc h
    cases o with
    | error e0 => simp [firstFetchError] at h
    | ok body =>
      simp [firstFetchError] at h
      simpa [refreshLoop] using ih _ h

/-- C2: for every execution of `refresh`, a failure of the HTTP GET, body
read, or JWKS parse for any configured URL makes refresh return the (first)
such error with the published snapshot `Keys` unchanged; the snapshot is
replaced only when every configured URL has been fetched and parsed
successfully. -/
theorem refresh_failure_preserves_snapshot :
    ∀ (outcomes : List FetchOutcome) (st : KeySetState),
      (∀ e, firstFetchError outcomes = some e →
        refresh outcomes st = (Except.error e, st)) ∧
      (firstFetchError outcomes = none →
        (refresh outcomes st).1 = Except.ok ()) ∧
      ((refresh outcomes st).2 ≠ st → firstFetchError outcomes = none) := by
  intro outcomes st
  refine ⟨?_, ?_, ?_⟩
  · intro e h
    simp [refresh, refreshLoop_error outcomes emptyKeys e h]
  · intro h
    obtain ⟨m, hm⟩ := refreshLoop_ok outcomes emptyKeys h
    simp [refresh, hm]
  · intro hne
    cases h : firstFetchError outcomes with
    | none => rfl
    | some e =>
      exact absurd (by simp [refresh, refreshLoop_error outcomes emptyKeys e h])
        hne

/-- Witness for C2 at a concrete refresh: the second URL fails reading its
body, so refresh returns that error and the snapshot stays. -/
theorem refresh_failure_preserves_snapshot_witness :
    refresh [Except.ok [], Except.error (GoErr.readErr 7)] ⟨emptyKeys⟩
      = (Except.error (GoErr.readErr 7), ⟨emptyKeys⟩) :=
  (refresh_failure_preserves_snapshot
    [Except.ok [], Except.error (GoErr.readErr 7)] ⟨emptyKeys⟩).1
    (GoErr.readErr 7) rfl

/-- C1: evaluation of `getKey` at the failing input of the claim.  With the
kid absent from the snapshot, refresh-on-unknown-kid enabled, the root
context already cancelled and the refresh channel full, the Go `select`
deterministically takes the `<-j.ctx.Done()` case, whose bare `return`
yields the named zero values: a nil key with a nil error — not the
`errKIDNotFound` error the claim (and the spec) require.  The caller
`keyFunc` checks only `err != nil`, so it then treats the nil key as valid
and dereferences it. -/
theorem getKey_ctxCancelled_no_error :
    getKey emptyKeys true true true emptyKeys "kid1" = (none, none) := by
  rfl

theorem foldl_kupdate_eq_mergemap (y : List rawJWK) :
    ∀ (m : KeyMap) (k : String),
      (y.foldl (fun m key => kupdate m key.ID key) m) k
        = mergemap m (parseKeySet y) k := by
  induction y with
  | nil => intro m k; simp [parseKeySet, List.foldl, mergemap, emptyKeys]
  | cons a t ih =>
    intro m k
    have h2 : parseKeySet (a :: t) k
        = mergemap (kupdate emptyKeys a.ID a) (parseKeySet t) k := by
      simpa [parseKeySet, List.foldl_cons] using
        ih (kupdate emptyKeys a.ID a) k
    rw [List.foldl_cons, ih (kupdate m a.ID a) k]
    simp only [mergemap, h2]
    cases hpt : parseKeySet t k with
    | some v => simp
    | none => by_cases hk : k = a.ID <;> simp [kupdate, emptyKeys, hk]

theorem parseKeySet_lookup (l : List rawJWK) (kid : String) :
    parseKeySet l kid = l.reverse.find? (fun j => j.ID == kid) := by
  induction l with
  | nil => simp [parseKeySet, List.foldl, emptyKeys]
  | cons a t ih =>
    have h2 : parseKeySet (a :: t) kid
        = mergemap (kupdate emptyKeys a.ID a) (parseKeySet t) kid := by
      simpa [parseKeySet, List.foldl_cons] using
        foldl_kupdate_eq_mergemap t (kupdate emptyKeys a.ID a) kid
    rw [h2, List.reverse_cons, List.find?_append]
    simp only [mergemap]
    cases hpt : parseKeySet t kid with
    | some v =>
      have hpt2 : List.find? (fun j => j.ID == kid) t.reverse = some v := by
        rw [← ih]; exact hpt
      simp [hpt2, Option.or]
    | none =>
      have hpt2 : List.find? (fun j => j.ID == kid) t.reverse = none := by
        rw [← ih]; exact hpt
      simp only [hpt2, Option.none_or]
      by_cases hk : kid = a.ID
      · simp [kupdate, hk, List.find?]
      · have hb : (a.ID == kid) = false := by
          simp only [beq_eq_false_iff_ne, ne_eq]
          exact fun h => hk h.symm
        simp [kupdate, emptyKeys, hk, List.find?, hb]

theorem mergemap_assoc (a b c : KeyMap) (k : String) :
    mergemap (mergemap a b) c k = mergemap a (mergemap b c) k := by
  simp only [mergemap]
  cases c k <;> cases b k <;> simp

theorem parseKeySet_append (x y : List rawJWK) (k : String) :
    parseKeySet (x ++ y) k = mergemap (parseKeySet x) (parseKeySet y) k := by
  simpa [parseKeySet, List.foldl_append] using
    foldl_kupdate_eq_mergemap y (parseKeySet x) k

theorem refreshLoop_all_ok (ls : List (List rawJWK)) :
    ∀ (acc : KeyMap),
      refreshLoop (ls.map Except.ok) acc
        = .ok (ls.foldl (fun m b => mergemap m (parseKeySet b)) acc) := by
  induction ls with
  | nil => intro acc; rfl
  | cons b t ih => intro acc; simpa [refreshLoop] using ih _

theorem fold_merge_flatten (ls : List (List rawJWK)) :
    ∀ (acc : KeyMap) (k : String),
      (ls.foldl (fun m b => mergemap m (parseKeySet b)) acc) k
        = mergemap acc (parseKeySet ls.flatten) k := by
  induction ls with
  | nil => intro acc k; simp [List.foldl, parseKeySet, mergemap, emptyKeys]
  | cons b t ih =>
    intro acc k
    rw [List.foldl_cons, ih (mergemap acc (parseKeySet b)) k,
      mergemap_assoc]
    simp only [mergemap, List.flatten_cons, parseKeySet_append]

/-- C5 (amended): `parseKeySet` keys every entry — including those whose kid
is the empty string, which are retained under the empty-string key rather
than dropped — so that a lookup returns the last entry of the document with
that kid; and when several URLs contribute, `refresh` merges the per-URL maps
left-to-right in configured order, a later URL's entry overwriting an
earlier one with the same kid, which makes the published snapshot answer
lookups exactly like the concatenation of the documents. -/
theorem parseKeySet_lastWins_and_merge :
    (∀ (l : List rawJWK) (kid : String),
      parseKeySet l kid = l.reverse.find? (fun j => j.ID == kid)) ∧
    (∀ (ls : List (List rawJWK)) (st : KeySetState) (kid : String),
      ((refresh (ls.map Except.ok) st).2).Keys kid
        = parseKeySet ls.flatten kid) := by
  refine ⟨parseKeySet_lookup, ?_⟩
  intro ls st kid
  simp [refresh, refreshLoop_all_ok ls emptyKeys]
  rw [fold_merge_flatten ls emptyKeys kid]
  simp [mergemap, emptyKeys]
  cases parseKeySet ls.flatten kid <;> simp

/-- C5 (counterexample): the claim says entries whose kid is the empty
string are dropped, but `parseKeySet` stores them under the empty-string
key, where a lookup finds them. -/
theorem parseKeySet_emptyKid_not_dropped :
    parseKeySet
        [{ Curve := "", Exponent := "", ID := "", Modulus := "",
           X := "", Y := "" }] ""
      = some { Curve := "", Exponent := "", ID := "", Modulus := "",
               X := "", Y := "" } := by
  rfl

theorem eqFold_length (p : List Char) :
    ∀ (s : List Char), eqFold p s = true → p.length = s.length := by
  induction p with
  | nil => intro s h; cases s with
    | nil => rfl
    | cons b bs => simp [eqFold] at h
  | cons a as ih =>
    intro s h
    cases s with
    | nil => simp [eqFold] at h
    | cons b bs =>
      simp only [eqFold, Bool.and_eq_true] at h
      simp [List.length_cons, ih bs h.2]

theorem jwtFromHeader_ok (scheme p r : List Char)
    (hfold : eqFold p scheme = true) (hr : 2 ≤ r.length) :
    jwtFromHeader scheme (p ++ r) = (trimChars r, none) := by
  have hlen : p.length = scheme.length := eqFold_length p scheme hfold
  have htake : (p ++ r).take scheme.length = p := by
    rw [← hlen]; exact List.take_left p r
  have hdrop : (p ++ r).drop scheme.length = r := by
    rw [← hlen]; exact List.drop_left p r
  have hlt : scheme.length + 1 < (p ++ r).length := by
    rw [List.length_append, ← hlen]; omega
  simp [jwtFromHeader, htake, hdrop, hfold, hlt]
  omega

/-- C6 (amended): the header extractor succeeds exactly when the header
value is at least two characters longer than the configured scheme and its
leading scheme-length slice equals the scheme case-insensitively — no
separator character is required — and on success it returns the entire
remainder after the scheme with surrounding whitespace trimmed; in every
other case it returns the `MissingOrMalformedToken` sentinel. -/
theorem jwtFromHeader_extraction :
    ∀ (scheme auth : List Char),
      ((jwtFromHeader scheme auth).2 = none ↔
        ∃ p r, auth = p ++ r ∧ eqFold p scheme = true ∧ 2 ≤ r.length) ∧
      (∀ p r, auth = p ++ r → eqFold p scheme = true → 2 ≤ r.length →
        jwtFromHeader scheme auth = (trimChars r, none)) ∧
      ((jwtFromHeader scheme auth).2 ≠ none →
        jwtFromHeader scheme auth = ([], some missingMsg)) := by
  intro scheme auth
  refine ⟨⟨?_, ?_⟩, ?_, ?_⟩
  · intro h
    unfold jwtFromHeader at h
    split at h
    · rename_i hc
      simp only [Bool.and_eq_true, decide_eq_true_eq] at hc
      refine ⟨auth.take scheme.length, auth.drop scheme.length,
        (List.take_append_drop _ _).symm, hc.2, ?_⟩
      have := List.length_drop scheme.length auth
      omega
    · simp at h
  · rintro ⟨p, r, hauth, hfold, hr⟩
    rw [hauth, jwtFromHeader_ok scheme p r hfold hr]
  · intro p r hauth hfold hr
    rw [hauth]; exact jwtFromHeader_ok scheme p r hfold hr
  · intro h
    by_cases hc : (decide (scheme.length + 1 < auth.length) &&
        eqFold (List.take scheme.length auth) scheme) = true
    · exact absurd (by simp [jwtFromHeader, hc]) h
    · simp [jwtFromHeader, hc]

/-- Witness for C6 (amended) at the default scheme and a well-formed
Authorization value. -/
theorem jwtFromHeader_extraction_witness :
    jwtFromHeader "Bearer".data "Bearer tok".data
      = (trimChars " tok".data, none) :=
  (jwtFromHeader_extraction "Bearer".data "Bearer tok".data).2.1
    "Bearer".data " tok".data (by decide) (by decide) (by decide)

/-- C6 (counterexample): the claim requires the scheme to be followed by one
separator character, but `jwtFromHeader` checks no separator at all: with
scheme `Bearer` the value `BearerXYZ` — whose seventh character is `X`, not
a separator — is accepted and yields token `XYZ`, while the claimed
acceptance condition rejects it. -/
theorem jwtFromHeader_no_separator_check :
    jwtFromHeader "Bearer".data "BearerXYZ".data = ("XYZ".data, none) ∧
    claimHeaderAccepts "Bearer".data "BearerXYZ".data = false := by
  exact ⟨by decide, by decide⟩

/-- C7: the default error handler answers 400 with body
`Missing or malformed JWT` exactly when the error message equals that
sentinel string, and 401 with body `Invalid or expired JWT` for every other
message. -/
theorem defaultErrorHandler_classification :
    ∀ msg : String,
      (defaultErrorHandler msg = (400, "Missing or malformed JWT") ↔
        msg = "Missing or malformed JWT") ∧
      (msg ≠ "Missing or malformed JWT" →
        defaultErrorHandler msg = (401, "Invalid or expired JWT")) := by
  intro msg
  by_cases h : msg = "Missing or malformed JWT" <;>
    simp [defaultErrorHandler, h]

/-- Witness for C7 at a non-sentinel message. -/
theorem defaultErrorHandler_classification_witness :
    defaultErrorHandler "token is expired" = (401, "Invalid or expired JWT")
      ∧ "token is expired" ≠ "Missing or malformed JWT" :=
  ⟨(defaultErrorHandler_classification "token is expired").2 (by decide),
   by decide⟩

/-- C9: when the caller leaves the token lookup unset it becomes the default
`header:Authorization` and an unset auth scheme becomes `Bearer`; when the
caller supplies any token lookup and no auth scheme, the scheme stays the
empty string. -/
theorem makeCfg_scheme_default_conditional :
    ∀ (cfg : CfgCore) (n : Nat),
      (cfg.tokenLookup = "" → cfg.authScheme = "" →
        (makeCfgDefaults cfg n).tokenLookup = defaultTokenLookup ∧
        (makeCfgDefaults cfg n).authScheme = "Bearer") ∧
      (cfg.tokenLookup ≠ "" → cfg.authScheme = "" →
        (makeCfgDefaults cfg n).tokenLookup = cfg.tokenLookup ∧
        (makeCfgDefaults cfg n).authScheme = "") := by
  intro cfg n
  constructor
  · intro h1 h2
    simp [makeCfgDefaults, h1, h2]
  · intro h1 h2
    simp [makeCfgDefaults, h1, h2]

/-- Witness for C9: defaults applied to an unset lookup, and a caller-set
lookup leaving the scheme empty. -/
theorem makeCfg_scheme_default_conditional_witness :
    (makeCfgDefaults { signingMethod := "", contextKey := "",
                       tokenLookup := "", authScheme := "" } 0).authScheme
      = "Bearer" ∧
    (makeCfgDefaults { signingMethod := "", contextKey := "",
                       tokenLookup := "query:token",
                       authScheme := "" } 0).authScheme = "" :=
  ⟨((makeCfg_scheme_default_conditional _ 0).1 rfl rfl).2,
   ((makeCfg_scheme_default_conditional _ 0).2 (by decide) rfl).2⟩

/-- C4: for every token whose kid resolves to a key entry, the key-lookup
function dispatches to the ECDSA construction for header alg `ES256`,
`ES384`, `ES512`; to the RSA construction for `PS256`, `PS384`, `PS512`,
`RS256`, `RS384`, `RS512`; and fails with `errUnsupportedKeyType` for every
other alg value (including a missing or non-string alg). -/
theorem keyFunc_alg_dispatch :
    ∀ (keys : KeyMap) (ru cd cf : Bool) (ka : KeyMap) (kid : String)
      (k : rawJWK),
      getKey keys ru cd cf ka kid = (some k, none) →
      (∀ a, a = ES256 ∨ a = ES384 ∨ a = ES512 →
        keyFuncBody keys ru cd cf ka (some (.str kid)) (some (.str a))
          = .ecdsaKey (some k)) ∧
      (∀ a, a = PS256 ∨ a = PS384 ∨ a = PS512 ∨
          a = RS256 ∨ a = RS384 ∨ a = RS512 →
        keyFuncBody keys ru cd cf ka (some (.str kid)) (some (.str a))
          = .rsaKey (some k)) ∧
      (∀ alg : Option HeaderVal,
        (∀ a, alg = some (.str a) →
          ¬(a = ES256 ∨ a = ES384 ∨ a = ES512) ∧
          ¬(a = PS256 ∨ a = PS384 ∨ a = PS512 ∨
            a = RS256 ∨ a = RS384 ∨ a = RS512)) →
        keyFuncBody keys ru cd cf ka (some (.str kid)) alg
          = .failure .unsupportedKeyType) := by
  intro keys ru cd cf ka kid k hget
  refine ⟨?_, ?_, ?_⟩
  · intro a ha
    simp only [keyFuncBody, hget]
    rw [if_pos ha]
  · intro a ha
    have hnes : ¬(a = ES256 ∨ a = ES384 ∨ a = ES512) := by
      rcases ha with h | h | h | h | h | h <;> subst h <;> decide
    simp only [keyFuncBody, hget]
    rw [if_neg hnes, if_pos ha]
  · intro alg halg
    cases alg with
    | none => simp [keyFuncBody, hget]
    | some v =>
      cases v with
      | nonString => simp [keyFuncBody, hget]
      | str a =>
        obtain ⟨h1, h2⟩ := halg a rfl
        simp only [keyFuncBody, hget]
        rw [if_neg h1, if_neg h2]

/-- Witness for C4: a loaded key set resolving kid `gofiber-test`, presented
with alg `ES256`, dispatches to the ECDSA construction on that entry. -/
theorem keyFunc_alg_dispatch_witness :
    keyFuncBody (kupdate emptyKeys "gofiber-test" sampleKey)
        false false false emptyKeys (some (HeaderVal.str "gofiber-test"))
        (some (HeaderVal.str ES256))
      = KeyFuncResult.ecdsaKey (some sampleKey) :=
  (keyFunc_alg_dispatch (kupdate emptyKeys "gofiber-test" sampleKey)
    false false false emptyKeys "gofiber-test" sampleKey (by decide)).1
    ES256 (Or.inl rfl)

theorem foldl_append_filterMap {α β : Type} (f : List β → α → List β)
    (g : α → Option β) (hf : ∀ acc p, f acc p = acc ++ (g p).toList) :
    ∀ (parts : List α) (acc : List β),
      parts.foldl f acc = acc ++ parts.filterMap g := by
  intro parts
  induction parts with
  | nil => intro acc; simp
  | cons p t ih =>
    intro acc
    rw [List.foldl_cons, hf, ih]
    cases hg : g p <;> simp [Option.toList, List.filterMap_cons, hg]

theorem getExtractors_eq_filterMap (tl s : List Char) :
    getExtractors tl s = (splitOnChar ',' tl).filterMap (partExtractor s) := by
  unfold getExtractors
  rw [foldl_append_filterMap _ (partExtractor s) ?_, List.nil_append]
  intro acc p
  unfold partExtractor
  dsimp only
  split_ifs <;> simp [Option.toList]

theorem partExtractor_unrecognized (s p : List Char)
    (h : unrecognizedPart p = true) : partExtractor s p = none := by
  unfold unrecognizedPart at h
  simp only [Bool.not_eq_true', Bool.or_eq_false_iff, decide_eq_false_iff_not]
    at h
  obtain ⟨⟨⟨h1, h2⟩, h3⟩, h4⟩ := h
  unfold partExtractor
  rw [if_neg h1, if_neg h2, if_neg h3, if_neg h4]

theorem extractLoop_singleton (c : Req) (e : ExtractorSpec) :
    extractLoop c [e] = runExtractor c e := rfl

theorem extractLoop_cons_cons (c : Req) (e e1 : ExtractorSpec)
    (rest : List ExtractorSpec) :
    extractLoop c (e :: e1 :: rest)
      = if (runExtractor c e).1 ≠ [] ∧ (runExtractor c e).2 = none then
          runExtractor c e
        else extractLoop c (e1 :: rest) := rfl

theorem extractLoop_first_success (c : Req) :
    ∀ (pre : List ExtractorSpec) (e : ExtractorSpec)
      (post : List ExtractorSpec),
      (∀ x ∈ pre,
        ¬((runExtractor c x).1 ≠ [] ∧ (runExtractor c x).2 = none)) →
      ((runExtractor c e).1 ≠ [] ∧ (runExtractor c e).2 = none) →
      extractLoop c (pre ++ e :: post) = runExtractor c e := by
  intro pre
  induction pre with
  | nil =>
    intro e post _ he
    rw [List.nil_append]
    cases post with
    | nil => exact extractLoop_singleton c e
    | cons p1 ps => rw [extractLoop_cons_cons, if_pos he]
  | cons x t ih =>
    intro e post hpre he
    have hx := hpre x (List.mem_cons_self x t)
    rw [List.cons_append]
    cases ht : t ++ e :: post with
    | nil => simp [List.append_eq_nil] at ht
    | cons y ys =>
      rw [extractLoop_cons_cons, if_neg hx, ← ht]
      exact ih e post (fun z hz => hpre z (List.mem_cons_of_mem x hz)) he

theorem extractLoop_all_fail (c : Req) :
    ∀ (pre : List ExtractorSpec) (e : ExtractorSpec),
      (∀ x ∈ pre ++ [e],
        ¬((runExtractor c x).1 ≠ [] ∧ (runExtractor c x).2 = none)) →
      extractLoop c (pre ++ [e]) = runExtractor c e := by
  intro pre
  induction pre with
  | nil =>
    intro e _
    rw [List.nil_append]
    exact extractLoop_singleton c e
  | cons x t ih =>
    intro e h
    have hx := h x (by simp)
    rw [List.cons_append]
    cases ht : t ++ [e] with
    | nil => simp [List.append_eq_nil] at ht
    | cons y ys =>
      rw [extractLoop_cons_cons, if_neg hx, ← ht]
      exact ih e fun z hz => h z (List.mem_cons_of_mem x hz)

theorem newHandler_extraction_error (exts : List ExtractorSpec) (c : Req)
    (m : String) (h : (extractLoop c exts).2 = some m) :
    newHandler exts c
      = Outcome.response (defaultErrorHandler m).1 (defaultErrorHandler m).2
    := by
  unfold newHandler
  rcases hp : extractLoop c exts with ⟨v, oe⟩
  rw [hp] at h
  simp only at h
  rw [h]

/-- C8: token extraction walks the configured extractors in the order of the
comma-separated token-lookup list with unrecognized sources skipped at
construction; the loop stops at the first extraction yielding a non-empty
token with no error; when every extractor fails the loop is left with the
last extractor's result, and when that result carries an error it is the
one handed to the error handler. -/
theorem extractor_chain_behaviour :
    (∀ (tl s : List Char),
      getExtractors tl s = (splitOnChar ',' tl).filterMap (partExtractor s))
    ∧
    (∀ (c : Req) (pre : List ExtractorSpec) (e : ExtractorSpec)
        (post : List ExtractorSpec),
      (∀ x ∈ pre,
        ¬((runExtractor c x).1 ≠ [] ∧ (runExtractor c x).2 = none)) →
      ((runExtractor c e).1 ≠ [] ∧ (runExtractor c e).2 = none) →
      extractLoop c (pre ++ e :: post) = runExtractor c e) ∧
    (∀ (c : Req) (pre : List ExtractorSpec) (e : ExtractorSpec),
      (∀ x ∈ pre ++ [e],
        ¬((runExtractor c x).1 ≠ [] ∧ (runExtractor c x).2 = none)) →
      extractLoop c (pre ++ [e]) = runExtractor c e) ∧
    (∀ (exts : List ExtractorSpec) (c : Req) (m : String),
      (extractLoop c exts).2 = some m →
      newHandler exts c
        = Outcome.response (defaultErrorHandler m).1
            (defaultErrorHandler m).2) :=
  ⟨getExtractors_eq_filterMap, extractLoop_first_success,
   extractLoop_all_fail, newHandler_extraction_error⟩

/-- Witness for C8: a failing query extractor followed by a succeeding
header extractor; the loop returns the header extraction. -/
theorem extractor_chain_behaviour_witness :
    extractLoop sampleReq
        [ExtractorSpec.query "q".data,
         ExtractorSpec.header "Authorization".data "Bearer".data]
      = runExtractor sampleReq
          (ExtractorSpec.header "Authorization".data "Bearer".data) :=
  extractor_chain_behaviour.2.1 sampleReq [ExtractorSpec.query "q".data]
    (ExtractorSpec.header "Authorization".data "Bearer".data) []
    (by decide) (by decide)

/-- C10: when every comma-separated entry of the token lookup has an
unrecognized source, `getExtractors` builds no extractor, the handler
proceeds with the empty token and nil extraction error into JWT parsing,
and the request fails with the 401 `Invalid or expired JWT` default
response — never the 400 missing-token response. -/
theorem unrecognized_lookup_yields_401 :
    ∀ (tl s : List Char) (c : Req),
      (splitOnChar ',' tl).all unrecognizedPart = true →
      getExtractors tl s = [] ∧
      extractLoop c (getExtractors tl s) = ([], none) ∧
      newHandler (getExtractors tl s) c
        = Outcome.response 401 "Invalid or expired JWT" := by
  intro tl s c h
  have hempty : getExtractors tl s = [] := by
    rw [getExtractors_eq_filterMap, List.filterMap_eq_nil_iff]
    intro p hp
    exact partExtractor_unrecognized s p (List.all_eq_true.mp h p hp)
  refine ⟨hempty, ?_, ?_⟩
  · rw [hempty]; rfl
  · rw [hempty]; rfl

/-- Witness for C10 at a concrete all-unrecognized token lookup. -/
theorem unrecognized_lookup_yields_401_witness :
    newHandler (getExtractors "something:x,foo:y".data []) sampleReq
      = Outcome.response 401 "Invalid or expired JWT" :=
  (unrecognized_lookup_yields_401 "something:x,foo:y".data [] sampleReq
    (by decide)).2.2

theorem serviceRequest_inWindow_fresh (r t : Int) (s : RefreshCtl)
    (h : t < s.lastRefresh + r) (hq : s.queuedWake = none) :
    serviceRequest (some r) t s
      = ({ s with queuedWake := some (s.lastRefresh + r) },
         [RCAction.waiterCancelled t]) := by
  simp [serviceRequest, hq, h]

theorem serviceRequest_inWindow_queued (r t w : Int) (s : RefreshCtl)
    (h : t < s.lastRefresh + r) (hq : s.queuedWake = some w) :
    serviceRequest (some r) t s = (s, [RCAction.waiterCancelled t]) := by
  simp [serviceRequest, hq, h]

theorem serviceRequest_immediate (r t : Int) (s : RefreshCtl)
    (h : ¬t < s.lastRefresh + r) :
    serviceRequest (some r) t s
      = ({ lastRefresh := t, queuedWake := s.queuedWake },
         [RCAction.refreshed t, RCAction.waiterCancelled t]) := by
  simp [serviceRequest, h]

/-- C3 (counterexample): the claim says no refresh commences earlier than
`last_refresh + rate_limit`, but a realizable schedule violates it.  With
rate limit 100: a request at time 0 refreshes inline (`lastRefresh = 0`); a
request at 50 is in-window, so a deferred refresh is queued with wake time
100; the deferred goroutine's timer fires at 100 but the goroutine has not
yet won `refreshMux` when a request arriving at 110 is serviced — the window
has elapsed, so that request refreshes inline (`lastRefresh = 110`); the
deferred goroutine then acquires the mutex and commences its refresh at 111,
only 1 after the previous refresh.  The schedule satisfies every timing
constraint Go imposes (`validSchedule`), yet the refresh commencement times
`[0, 110, 111]` are not spaced by the rate limit. -/
theorem rateLimit_spacing_violated :
    validSchedule (some 100) (rcInit 100) (rcInit 100).lastRefresh
        [RCEvent.request 0, RCEvent.request 50, RCEvent.request 110,
         RCEvent.deferredRun 111] = true ∧
    refreshTimes (rcTrace (some 100) (rcInit 100)
        [RCEvent.request 0, RCEvent.request 50, RCEvent.request 110,
         RCEvent.deferredRun 111]).2 = [0, 110, 111] ∧
    spacedFrom 100 (rcInit 100).lastRefresh [0, 110, 111] = false :=
  ⟨by decide, by decide, by decide⟩

/-- C3 (amended): with a rate limit configured, the request-servicing branch
refreshes inline only when at least `rate_limit` has elapsed since
`lastRefresh` (so no inline refresh commences early); a request arriving
inside the window has its waiter cancelled in that servicing with no
refresh, and when no deferred refresh is queued yet it queues one with wake
time `lastRefresh + rate_limit`; when one is already queued such a request
changes nothing else (at most one deferred refresh at a time); a pending
deferred refresh executes exactly once, at its schedule time — which on any
realizable schedule is no earlier than its wake time — and clears the queue,
while a deferred-run event with nothing pending does nothing; and the
capacity-1 request channel never holds more than one request, a send into a
full channel being dropped.  (The unconditional spacing invariant of the
original claim fails: a late-firing deferred refresh can commence less than
`rate_limit` after an intervening inline refresh, see the counterexample.) -/
theorem rateLimit_refresh_behaviour :
    (∀ (r : Int) (s : RefreshCtl) (t t' : Int),
      RCAction.refreshed t' ∈ (rcExec (some r) s (RCEvent.request t)).2 →
      t' = t ∧ s.lastRefresh + r ≤ t) ∧
    (∀ (r : Int) (s : RefreshCtl) (t : Int), t < s.lastRefresh + r →
      (serviceRequest (some r) t s).2 = [RCAction.waiterCancelled t]) ∧
    (∀ (r : Int) (s : RefreshCtl) (t : Int), t < s.lastRefresh + r →
      s.queuedWake = none →
      (serviceRequest (some r) t s).1.queuedWake
        = some (s.lastRefresh + r)) ∧
    (∀ (r : Int) (s : RefreshCtl) (t w : Int), s.queuedWake = some w →
      t < s.lastRefresh + r →
      serviceRequest (some r) t s = (s, [RCAction.waiterCancelled t])) ∧
    (∀ (r : Int) (s : RefreshCtl) (t w : Int), s.queuedWake = some w →
      rcExec (some r) s (RCEvent.deferredRun t)
        = ({ lastRefresh := t, queuedWake := none },
           [RCAction.refreshed t])) ∧
    (∀ (r : Int) (s : RefreshCtl) (t : Int), s.queuedWake = none →
      rcExec (some r) s (RCEvent.deferredRun t) = (s, [])) ∧
    (∀ (r : Int) (s : RefreshCtl) (prev t : Int) (evs : List RCEvent)
        (w : Int),
      validSchedule (some r) s prev (RCEvent.deferredRun t :: evs) = true →
      s.queuedWake = some w → w ≤ t) ∧
    (∀ (ch : List Nat) (c : Nat), ch.length ≤ 1 →
      (trySend ch c).1.length ≤ 1 ∧
      (ch.length = 1 → trySend ch c = (ch, false))) := by
  refine ⟨?_, ?_, ?_, ?_, ?_, ?_, ?_, ?_⟩
  · intro r s t t' hmem
    simp only [rcExec] at hmem
    by_cases hw : t < s.lastRefresh + r
    · cases hq : s.queuedWake with
      | none =>
        rw [serviceRequest_inWindow_fresh r t s hw hq] at hmem
        simp at hmem
      | some w =>
        rw [serviceRequest_inWindow_queued r t w s hw hq] at hmem
        simp at hmem
    · rw [serviceRequest_immediate r t s hw] at hmem
      simp at hmem
      exact ⟨hmem, by omega⟩
  · intro r s t h
    simp only [serviceRequest, if_pos h]
    cases s.queuedWake <;> rfl
  · intro r s t h hq
    rw [serviceRequest_inWindow_fresh r t s h hq]
  · intro r s t w hq h
    exact serviceRequest_inWindow_queued r t w s h hq
  · intro r s t w hq
    simp [rcExec, hq]
  · intro r s t hq
    simp [rcExec, hq]
  · intro r s prev t evs w hv hq
    simp only [validSchedule, hq, Bool.and_eq_true, decide_eq_true_eq] at hv
    exact hv.1.2
  · intro ch c h
    constructor
    · by_cases hlen : ch.length < 1
      · simp only [trySend, if_pos hlen, List.length_append,
          List.length_cons, List.length_nil]
        omega
      · simp only [trySend, if_neg hlen]
        exact h
    · intro h1
      have h2 : ¬ch.length < 1 := by omega
      simp [trySend, h2]

/-- Witness for C3 (amended): each conjunct at the concrete scenario of the
counterexample schedule — an inline refresh at 110 from last refresh 0 with
rate limit 100, an in-window request at 50 cancelled and queueing wake 100,
a coalesced second in-window request, the pending deferred refresh executing
at 111, a deferred-run event with nothing pending, a valid schedule bounding
the deferred run by its wake, and a dropped send into the full channel. -/
theorem rateLimit_refresh_behaviour_witness :
    ((110 : Int) = 110 ∧ (0 : Int) + 100 ≤ 110) ∧
    (serviceRequest (some 100) 50
        { lastRefresh := 0, queuedWake := none }).2
      = [RCAction.waiterCancelled 50] ∧
    (serviceRequest (some 100) 50
        { lastRefresh := 0, queuedWake := none }).1.queuedWake
      = some (0 + 100) ∧
    serviceRequest (some 100) 50 { lastRefresh := 0, queuedWake := some 100 }
      = ({ lastRefresh := 0, queuedWake := some 100 },
         [RCAction.waiterCancelled 50]) ∧
    rcExec (some 100) { lastRefresh := 0, queuedWake := some 100 }
        (RCEvent.deferredRun 111)
      = ({ lastRefresh := 111, queuedWake := none },
         [RCAction.refreshed 111]) ∧
    rcExec (some 100) { lastRefresh := 0, queuedWake := none }
        (RCEvent.deferredRun 111)
      = ({ lastRefresh := 0, queuedWake := none }, []) ∧
    (100 : Int) ≤ 111 ∧
    trySend [0] 1 = ([0], false) :=
  ⟨rateLimit_refresh_behaviour.1 100 { lastRefresh := 0, queuedWake := some 100 }
     110 110 (by decide),
   rateLimit_refresh_behaviour.2.1 100
     { lastRefresh := 0, queuedWake := none } 50 (by decide),
   rateLimit_refresh_behaviour.2.2.1 100
     { lastRefresh := 0, queuedWake := none } 50 (by decide) rfl,
   rateLimit_refresh_behaviour.2.2.2.1 100
     { lastRefresh := 0, queuedWake := some 100 } 50 100 rfl (by decide),
   rateLimit_refresh_behaviour.2.2.2.2.1 100
     { lastRefresh := 0, queuedWake := some 100 } 111 100 rfl,
   rateLimit_refresh_behaviour.2.2.2.2.2.1 100
     { lastRefresh := 0, queuedWake := none } 111 rfl,
   rateLimit_refresh_behaviour.2.2.2.2.2.2.1 100
     { lastRefresh := 0, queuedWake := some 100 } 110 111 [] 100
     (by decide) rfl,
   (rateLimit_refresh_behaviour.2.2.2.2.2.2.2 [0] 1 (by decide)).2 rfl⟩
end Jwtware
